import Mathlib

/-!
Verification development for the hackathon-todo repository.

The repository has two variants:
* a persisted FastAPI backend (`backend/src`): SQLModel `Task` table,
  CRUD functions in `backend/src/database/crud.py`, pydantic schemas in
  `backend/src/schemas/task.py`, auth dependencies in
  `backend/src/api/dependencies.py`, and route handlers in
  `backend/src/api/routes/tasks.py`;
* an in-memory CLI prototype (`src`): task dicts and validators in
  `src/models/task.py`, module-global list state and service functions in
  `src/services/task_service.py`.

The embedding is shallow: the database table is a `List Task` threaded
through the functions, the CLI module globals (`tasks`, `next_id`) are an
explicit `SvcState`, Python dict mutation in place is modelled by replacing
the task in the list at its position, and `str.strip()` is `pyStrip`.
-/

/-- Characters removed by Python `str.strip()`; modelled by `Char.isWhitespace`. -/
def pyWs (c : Char) : Bool := c.isWhitespace

/-- Strip leading and trailing whitespace from a character list, as Python
`str.strip()` does on the underlying character sequence. -/
def stripChars (l : List Char) : List Char :=
  ((l.dropWhile pyWs).reverse.dropWhile pyWs).reverse

/-- Python `str.strip()` on strings. -/
def pyStrip (s : String) : String :=
  String.mk (stripChars s.data)

namespace Cli

/-- A CLI task dict (`src/models/task.py::create_task_dict` shape): keys
`id`, `title`, `description`, `priority`, `complete`. -/
structure CTask where
  id : Nat
  title : String
  description : String
  priority : String
  complete : Bool
deriving DecidableEq, Repr

/-- Models `src/models/task.py::validate_title`.  The `isinstance(title, str)`
branch cannot fire in the embedding because the argument is a `String`. -/
def validate_title (title : String) : Bool × String :=
  if pyStrip title = "" then (false, "Title cannot be empty")
  else (true, "")

/-- Models `src/models/task.py::validate_priority`.  The `isinstance` branch cannot
fire in the embedding; the error message is kept without quote characters. -/
def validate_priority (priority : String) : Bool × String :=
  if priority = "High" ∨ priority = "Medium" ∨ priority = "Low" then (true, "")
  else (false, "Priority must be exactly High, Medium, or Low")

/-- Models `src/models/task.py::create_task_dict`: trims the title, stores
description and priority verbatim, `complete = False`. -/
def create_task_dict (task_id : Nat) (title description priority : String) : CTask :=
  { id := task_id, title := pyStrip title, description := description,
    priority := priority, complete := false }

/-- The module-global state of `src/services/task_service.py`:
`tasks: list[dict]` and `next_id: int` (initially 1). -/
structure SvcState where
  tasks : List CTask
  next_id : Nat
deriving DecidableEq, Repr

/-- The initial module state: empty list, `next_id = 1`. -/
def initState : SvcState := { tasks := [], next_id := 1 }

/-- Models `task_service.get_task_by_id`: linear scan returning the first task with
the given id, as a (success, message, payload) triple. -/
def get_task_by_id (tasks : List CTask) (task_id : Nat) : Bool × String × Option CTask :=
  match tasks.find? (fun t => t.id == task_id) with
  | some t => (true, "Task found", some t)
  | none => (false, "Task not found", none)

/-- Models `task_service.create_task`: validate title then priority, then append
`create_task_dict next_id ...` and increment `next_id`. -/
def create_task (s : SvcState) (title description priority : String) :
    SvcState × (Bool × String × Option CTask) :=
  if (validate_title title).1 = false then (s, (false, (validate_title title).2, none))
  else if (validate_priority priority).1 = false then (s, (false, (validate_priority priority).2, none))
  else
    let task := create_task_dict s.next_id title description priority
    ({ tasks := s.tasks ++ [task], next_id := s.next_id + 1 },
     (true, "Task added successfully", some task))

/-- Replace the first task with the given id (models in-place mutation of
the dict object found by the linear scan). -/
def replaceById : List CTask → Nat → CTask → List CTask
  | [], _, _ => []
  | t :: ts, task_id, t' =>
    if t.id == task_id then t' :: ts else t :: replaceById ts task_id t'

/-- Priority phase of `task_service.update_task` (lines 193-199): if a
priority is supplied it is validated and, when valid, written to the task;
an invalid priority aborts with the validation message, leaving earlier
in-place writes in effect. -/
def update_prio (s : SvcState) (task_id : Nat) (t : CTask) (priority : Option String) :
    SvcState × (Bool × String × Option CTask) :=
  match priority with
  | some p =>
    if (validate_priority p).1 = false then (s, (false, (validate_priority p).2, none))
    else
      let t' := { t with priority := p }
      ({ s with tasks := replaceById s.tasks task_id t' },
       (true, "Task updated successfully", some t'))
  | none => (s, (true, "Task updated successfully", some t))

/-- Description phase of `task_service.update_task` (lines 188-191): an
unconditional in-place write when a description is supplied. -/
def update_desc (s : SvcState) (task_id : Nat) (t : CTask) (description priority : Option String) :
    SvcState × (Bool × String × Option CTask) :=
  match description with
  | some d =>
    let t' := { t with description := d }
    update_prio { s with tasks := replaceById s.tasks task_id t' } task_id t' priority
  | none => update_prio s task_id t priority

/-- Models `task_service.update_task`: fails when no field is supplied, then finds
the task, then applies title, description, priority phases in order with
early returns.  Because the Python dict is mutated in place, writes made by
earlier phases persist when a later phase fails. -/
def update_task (s : SvcState) (task_id : Nat)
    (title description priority : Option String) :
    SvcState × (Bool × String × Option CTask) :=
  if title.isNone && description.isNone && priority.isNone then
    (s, (false, "No fields to update", none))
  else
    match (get_task_by_id s.tasks task_id).2.2 with
    | none => (s, (false, "Task not found", none))
    | some t0 =>
      match title with
      | some ti =>
        if (validate_title ti).1 = false then (s, (false, (validate_title ti).2, none))
        else
          let t1 := { t0 with title := pyStrip ti }
          update_desc { s with tasks := replaceById s.tasks task_id t1 } task_id t1
            description priority
      | none => update_desc s task_id t0 description priority

/-- Models `task_service.toggle_task_completion`: flips `complete` in place. -/
def toggle_task_completion (s : SvcState) (task_id : Nat) :
    SvcState × (Bool × String × Option CTask) :=
  match (get_task_by_id s.tasks task_id).2.2 with
  | none => (s, (false, "Task not found", none))
  | some t =>
    let t' := { t with complete := !t.complete }
    ({ s with tasks := replaceById s.tasks task_id t' },
     (true, if t'.complete then "Task marked as complete" else "Task marked as incomplete",
      some t'))

/-- Models `task_service.delete_task`: find the task, then `tasks.remove(task)`
(removal of the first list element equal to the found dict). -/
def delete_task (s : SvcState) (task_id : Nat) : SvcState × (Bool × String) :=
  match (get_task_by_id s.tasks task_id).2.2 with
  | none => (s, (false, "Task not found"))
  | some t => ({ s with tasks := s.tasks.erase t }, (true, "Task deleted successfully"))

/-- The priority rank dict `{"High": 0, "Medium": 1, "Low": 2}` of
`task_service.get_all_tasks`.  A key outside the dict raises `KeyError` in
Python; the embedding totalises it with rank 3, which is never reached on
states whose priorities are validated. -/
def priority_order (p : String) : Nat :=
  if p = "High" then 0 else if p = "Medium" then 1 else if p = "Low" then 2 else 3

/-- The Python sort key `(t["complete"], priority_order[t["priority"]], t["id"])`
with `False < True` encoded as `0 < 1`. -/
def sortKey (t : CTask) : Nat × Nat × Nat :=
  (if t.complete then 1 else 0, priority_order t.priority, t.id)

/-- Lexicographic comparison of sort keys, as Python compares tuples. -/
def keyLe (a b : Nat × Nat × Nat) : Bool :=
  a.1 < b.1 || (a.1 = b.1 && (a.2.1 < b.2.1 || (a.2.1 = b.2.1 && a.2.2 ≤ b.2.2)))

/-- Stable insertion of a task in front of the first stored task it does not
compare after. -/
def insertSorted (x : CTask) : List CTask → List CTask
  | [] => [x]
  | y :: ys =>
    if keyLe (sortKey x) (sortKey y) then x :: y :: ys else y :: insertSorted x ys

/-- Stable sort by `sortKey`.  Python `sorted` is a stable sort ordered by
the key; the output of a stable sort by a total preorder is unique, so a
stable insertion sort computes the same list as CPython timsort. -/
def sortTasks : List CTask → List CTask
  | [] => []
  | x :: xs => insertSorted x (sortTasks xs)

/-- Models `task_service.get_all_tasks`: empty-list fast path, otherwise the stable
sort by `(complete, priority rank, id)`. -/
def get_all_tasks (tasks : List CTask) : Bool × String × List CTask :=
  if tasks.isEmpty then (true, "No tasks found", [])
  else
    let sorted_tasks := sortTasks tasks
    (true, "Found " ++ toString sorted_tasks.length ++ " tasks", sorted_tasks)

/-- One user-level operation against the CLI service state. -/
inductive Op where
  | create (title description priority : String)
  | update (task_id : Nat) (title description priority : Option String)
  | toggle (task_id : Nat)
  | delete (task_id : Nat)
deriving DecidableEq, Repr

/-- Execute one operation; the second component is the identifier assigned
by a successful create (`none` otherwise). -/
def stepOp (s : SvcState) : Op → SvcState × Option Nat
  | .create t d p =>
    let r := create_task s t d p
    (r.1, if r.2.1 then some s.next_id else none)
  | .update task_id t d p => ((update_task s task_id t d p).1, none)
  | .toggle task_id => ((toggle_task_completion s task_id).1, none)
  | .delete task_id => ((delete_task s task_id).1, none)

/-- Execute a list of operations from a state, logging the identifiers
assigned to successful creates, in order. -/
def runAux (s : SvcState) : List Op → SvcState × List Nat
  | [] => (s, [])
  | op :: ops =>
    let r := stepOp s op
    let rest := runAux r.1 ops
    (rest.1, match r.2 with
             | some a => a :: rest.2
             | none => rest.2)

/-- Execute a list of operations from the initial module state. -/
def runCli (ops : List Op) : SvcState × List Nat :=
  runAux initState ops

end Cli

namespace Backend

/-- The persisted `Task` row (`backend/src/models/task.py`): primary key
`id`, owner `user_id`, `title`, optional `description`, `complete`,
timestamps modelled as `Nat` clock values.  The SQLAlchemy `onupdate`
column hook declared on `updated_at` is modelled inside `update_task`
(see `firesOnupdate`). -/
structure Task where
  id : Nat
  user_id : String
  title : String
  description : Option String
  complete : Bool
  created_at : Nat
  updated_at : Nat
deriving DecidableEq, Repr

/-- Models `crud.get_task_by_id` / `session.get(Task, task_id)`: primary-key lookup,
modelled as the first row with that id. -/
def get_task_by_id (db : List Task) (task_id : Nat) : Option Task :=
  db.find? (fun t => t.id == task_id)

/-- Models `crud.get_tasks_by_user`: `select(Task).where(Task.user_id == user_id)`. -/
def get_tasks_by_user (db : List Task) (user_id : String) : List Task :=
  db.filter (fun t => t.user_id == user_id)

/-- Models `crud.create_task`: builds `Task(user_id=..., title=..., description=...)`
and inserts it.  The surrogate id and the timestamps are assigned by the
database on insert and are passed in as parameters `new_id` and `now`;
`complete` defaults to `False`.  The title is stored verbatim. -/
def create_task (db : List Task) (user_id title : String) (description : Option String)
    (new_id now : Nat) : List Task × Task :=
  let task : Task := { id := new_id, user_id := user_id, title := title,
                       description := description, complete := false,
                       created_at := now, updated_at := now }
  (db ++ [task], task)

/-- One entry of the `updates: dict` passed to `crud.update_task`: a field
name with a type-correct value for the model attributes of `Task`, or
`unknown name` for a key that is not an attribute of the model
(`hasattr(task, field)` false). -/
inductive FieldUpdate where
  | title (v : String)
  | description (v : Option String)
  | complete (v : Bool)
  | user_id (v : String)
  | id (v : Nat)
  | created_at (v : Nat)
  | updated_at (v : Nat)
  | unknown (name : String)
deriving DecidableEq, Repr

/-- Models `setattr(task, field, value)` for a known field; an unknown field is
skipped (`crud.update_task` logs and ignores it). -/
def setattr (t : Task) : FieldUpdate → Task
  | .title v => { t with title := v }
  | .description v => { t with description := v }
  | .complete v => { t with complete := v }
  | .user_id v => { t with user_id := v }
  | .id v => { t with id := v }
  | .created_at v => { t with created_at := v }
  | .updated_at v => { t with updated_at := v }
  | .unknown _ => t

/-- The `for field, value in updates.items(): ...` loop of `crud.update_task`. -/
def applyUpdates (t : Task) (updates : List FieldUpdate) : Task :=
  updates.foldl setattr t

/-- Whether an update entry names a key that is an attribute of the model. -/
def FieldUpdate.isKnown : FieldUpdate → Bool
  | .unknown _ => false
  | _ => true

def FieldUpdate.isUpdatedAt : FieldUpdate → Bool
  | .updated_at _ => true
  | _ => false

/-- Replace the first row with the given id (the committed state of the ORM
object fetched by primary key and mutated in place). -/
def replaceById : List Task → Nat → Task → List Task
  | [], _, _ => []
  | t :: ts, task_id, t' =>
    if t.id == task_id then t' :: ts else t :: replaceById ts task_id t'

/-- Whether the committed UPDATE statement fires the SQLAlchemy `onupdate`
hook declared on `Task.updated_at` (`backend/src/models/task.py` lines
45-48).  The hook fires when an UPDATE is emitted (at least one instrumented
attribute was set, i.e. some entry names a known field) and `updated_at` is
not itself in the SET clause (no entry names it explicitly); a map touching
no model attribute leaves the row clean, so no UPDATE is emitted and
nothing is bumped. -/
def firesOnupdate (updates : List FieldUpdate) : Bool :=
  updates.any FieldUpdate.isKnown && !(updates.any FieldUpdate.isUpdatedAt)

/-- The row as committed by `crud.update_task`: the `setattr` loop applied
to the fetched row, then the `onupdate` hook setting `updated_at` to the
commit-time clock `now` when it fires (see `firesOnupdate`). -/
def commitRow (t : Task) (updates : List FieldUpdate) (now : Nat) : Task :=
  let t1 := applyUpdates t updates
  if firesOnupdate updates then { t1 with updated_at := now } else t1

/-- Models `crud.update_task`: fetch by primary key; `None` (store untouched) when
absent; otherwise apply every entry of `updates` via `setattr`, skipping
unknown field names, and commit the mutated row — the commit runs the
`onupdate` hook on `updated_at`, with `now` standing for the database
clock at commit time (see `commitRow`). -/
def update_task (db : List Task) (task_id : Nat) (updates : List FieldUpdate)
    (now : Nat) : List Task × Option Task :=
  match get_task_by_id db task_id with
  | none => (db, none)
  | some t =>
    (replaceById db task_id (commitRow t updates now), some (commitRow t updates now))

/-- Models `crud.delete_task`: fetch by primary key; `False` (store untouched) when
absent; otherwise delete the row and return `True`. -/
def delete_task (db : List Task) (task_id : Nat) : List Task × Bool :=
  match get_task_by_id db task_id with
  | none => (db, false)
  | some _ => (db.eraseP (fun t => t.id == task_id), true)

/-- A validated `TaskCreate` body (`schemas/task.py`): `title` required,
1-200 characters; `description` optional, at most 1000 characters. -/
structure TaskCreate where
  title : String
  description : Option String
deriving DecidableEq, Repr

/-- A validated `TaskUpdate` body (PUT): `title` required (1-200 chars),
`complete` required, `description` optional with default `None`. -/
structure TaskUpdate where
  title : String
  description : Option String
  complete : Bool
deriving DecidableEq, Repr

/-- A `TaskPatch` body (PATCH) together with pydantic field set-ness:
`none` means the field was absent from the request body.  A field supplied
explicitly as JSON `null` is not distinguished from an absent `title` or
`complete` (for `description`, `some none` is an explicit null). -/
structure TaskPatch where
  title : Option String
  description : Option (Option String)
  complete : Option Bool
deriving DecidableEq, Repr

/-- A raw PUT request body before pydantic validation: each field either
absent (`none`) or present with a value; a present `description` may be
JSON null (`some none`). -/
structure UpdateBody where
  title : Option String
  description : Option (Option String)
  complete : Option Bool
deriving DecidableEq, Repr

/-- Pydantic validation of an `UpdateBody` against the `TaskUpdate` schema
as declared in `schemas/task.py`: `title` is required
(`Field(..., min_length=1, max_length=200)`), `complete` is required
(`Field(...)`), and `description` is declared with default `None`
(`Field(None, max_length=1000)`), so an absent description validates and
defaults to null. -/
def validateTaskUpdate (b : UpdateBody) : Except String TaskUpdate :=
  match b.title with
  | none => .error "title: Field required"
  | some t =>
    if t.length < 1 then .error "title: too short"
    else if 200 < t.length then .error "title: too long"
    else
      match b.complete with
      | none => .error "complete: Field required"
      | some c =>
        match b.description with
        | none => .ok { title := t, description := none, complete := c }
        | some none => .ok { title := t, description := none, complete := c }
        | some (some d) =>
          if 1000 < d.length then .error "description: too long"
          else .ok { title := t, description := some d, complete := c }

/-- A raw POST request body before pydantic validation. -/
structure CreateBody where
  title : Option String
  description : Option (Option String)
deriving DecidableEq, Repr

/-- Pydantic validation of a `CreateBody` against the `TaskCreate` schema:
`title` required, 1-200 characters; `description` optional (default null),
at most 1000 characters.  No trimming is applied anywhere. -/
def validateTaskCreate (b : CreateBody) : Except String TaskCreate :=
  match b.title with
  | none => .error "title: Field required"
  | some t =>
    if t.length < 1 then .error "title: too short"
    else if 200 < t.length then .error "title: too long"
    else
      match b.description with
      | none => .ok { title := t, description := none }
      | some none => .ok { title := t, description := none }
      | some (some d) =>
        if 1000 < d.length then .error "description: too long"
        else .ok { title := t, description := some d }

/-- Models `task_in.model_dump()` for a PUT body: all three fields, in declaration
order. -/
def TaskUpdate.model_dump (u : TaskUpdate) : List FieldUpdate :=
  [.title u.title, .description u.description, .complete u.complete]

/-- Models `task_in.model_dump(exclude_unset=True)` for a PATCH body: only the
fields that were supplied, in declaration order. -/
def TaskPatch.model_dump_exclude_unset (p : TaskPatch) : List FieldUpdate :=
  (match p.title with
   | some t => [FieldUpdate.title t]
   | none => []) ++
  (match p.description with
   | some d => [FieldUpdate.description d]
   | none => []) ++
  (match p.complete with
   | some c => [FieldUpdate.complete c]
   | none => [])

/-- An HTTP error response (`HTTPException`): status code and detail. -/
structure HttpError where
  status : Nat
  detail : String
deriving DecidableEq, Repr

/-- Outcome of a route handler: a response value or an `HTTPException`. -/
inductive Resp (α : Type) where
  | ok (value : α)
  | error (e : HttpError)
deriving DecidableEq, Repr

/-- The 403 raised by `dependencies.verify_user_id_match` (quote characters
of the original f-string detail omitted). -/
def authzError (path_user_id : String) : HttpError :=
  { status := 403,
    detail := "Access denied: Cannot access resources for user " ++ path_user_id }

/-- Models `dependencies.verify_user_id_match`: exact string comparison of the
authenticated subject and the path owner; a mismatch raises 403. -/
def verify_user_id_match (current_user path_user_id : String) : Option HttpError :=
  if current_user ≠ path_user_id then some (authzError path_user_id) else none

/-- The list response schema `TaskListResponse`: tasks plus a count field. -/
structure TaskListResponse where
  tasks : List Task
  count : Nat
deriving DecidableEq, Repr

/-- Route handler `GET /{user_id}/tasks` (`routes/tasks.py::list_tasks`). -/
def list_tasks (user_id current_user : String) (db : List Task) :
    List Task × Resp TaskListResponse :=
  match verify_user_id_match current_user user_id with
  | some e => (db, .error e)
  | none =>
    let ts := get_tasks_by_user db user_id
    (db, .ok { tasks := ts, count := ts.length })

/-- Route handler `POST /{user_id}/tasks` (`routes/tasks.py::create_new_task`);
`new_id` and `now` stand for the database-assigned surrogate key and clock. -/
def create_new_task (user_id : String) (task_in : TaskCreate) (current_user : String)
    (db : List Task) (new_id now : Nat) : List Task × Resp Task :=
  match verify_user_id_match current_user user_id with
  | some e => (db, .error e)
  | none =>
    let r := create_task db user_id task_in.title task_in.description new_id now
    (r.1, .ok r.2)

/-- Route handler `GET /{user_id}/tasks/{task_id}` (`routes/tasks.py::get_task`). -/
def get_task (user_id : String) (task_id : Nat) (current_user : String)
    (db : List Task) : List Task × Resp Task :=
  match verify_user_id_match current_user user_id with
  | some e => (db, .error e)
  | none =>
    match get_task_by_id db task_id with
    | none => (db, .error { status := 404, detail := "Task not found" })
    | some t =>
      if t.user_id ≠ user_id then
        (db, .error { status := 403, detail := "User does not have access to this task" })
      else (db, .ok t)

/-- Route handler `PUT /{user_id}/tasks/{task_id}`
(`routes/tasks.py::update_existing_task`); `now` is the database clock at
commit time. -/
def update_existing_task (user_id : String) (task_id : Nat) (task_in : TaskUpdate)
    (current_user : String) (db : List Task) (now : Nat) : List Task × Resp Task :=
  match verify_user_id_match current_user user_id with
  | some e => (db, .error e)
  | none =>
    match get_task_by_id db task_id with
    | none => (db, .error { status := 404, detail := "Task not found" })
    | some t =>
      if t.user_id ≠ user_id then
        (db, .error { status := 403, detail := "User does not have access to this task" })
      else
        let r := update_task db task_id task_in.model_dump now
        match r.2 with
        | none => (r.1, .error { status := 404, detail := "Task not found after update" })
        | some t' => (r.1, .ok t')

/-- Route handler `PATCH /{user_id}/tasks/{task_id}` (the merge-update
handler of `routes/tasks.py`, lines 293-329): auth gate, 404, ownership 403,
then 400 when `model_dump(exclude_unset=True)` is empty, then the merge. -/
def patch_task (user_id : String) (task_id : Nat) (task_in : TaskPatch)
    (current_user : String) (db : List Task) (now : Nat) : List Task × Resp Task :=
  match verify_user_id_match current_user user_id with
  | some e => (db, .error e)
  | none =>
    match get_task_by_id db task_id with
    | none => (db, .error { status := 404, detail := "Task not found" })
    | some t =>
      if t.user_id ≠ user_id then
        (db, .error { status := 403, detail := "User does not have access to this task" })
      else
        let update_data := task_in.model_dump_exclude_unset
        if update_data.isEmpty then
          (db, .error { status := 400, detail := "No fields to update" })
        else
          let r := update_task db task_id update_data now
          match r.2 with
          | none => (r.1, .error { status := 404, detail := "Task not found after update" })
          | some t' => (r.1, .ok t')

/-- Route handler `DELETE /{user_id}/tasks/{task_id}`
(`routes/tasks.py::delete_task_by_id`). -/
def delete_task_by_id (user_id : String) (task_id : Nat) (current_user : String)
    (db : List Task) : List Task × Resp Unit :=
  match verify_user_id_match current_user user_id with
  | some e => (db, .error e)
  | none =>
    match get_task_by_id db task_id with
    | none => (db, .error { status := 404, detail := "Task not found" })
    | some t =>
      if t.user_id ≠ user_id then
        (db, .error { status := 403, detail := "User does not have access to this task" })
      else
        let r := delete_task db task_id
        if r.2 then (r.1, .ok ())
        else (r.1, .error { status := 404, detail := "Task not found" })

end Backend

/-- A sample stored task owned by u1, used as a concrete input in witnesses. -/
def sampleTask : Backend.Task :=
  { id := 1, user_id := "u1", title := "a", description := none, complete := false,
    created_at := 0, updated_at := 0 }

/-- The PATCH body that sets no field at all. -/
def emptyPatch : Backend.TaskPatch := { title := none, description := none, complete := none }

/-- A PUT body with title and description but no completion field. -/
def bodyNoComplete : Backend.UpdateBody :=
  { title := some "a", description := some (some "d"), complete := none }

/-- A PUT body with description and completion but no title field. -/
def bodyNoTitle : Backend.UpdateBody :=
  { title := none, description := some (some "d"), complete := some true }

/-- A PUT body with title and completion but no description field. -/
def bodyNoDescription : Backend.UpdateBody :=
  { title := some "a", description := none, complete := some true }

/-- A sample CLI task, used as a concrete input in witnesses. -/
def sampleCTask : Cli.CTask :=
  { id := 1, title := "a", description := "", priority := "High", complete := false }

/-- A sample CLI service state holding `sampleCTask`. -/
def sampleState : Cli.SvcState := { tasks := [sampleCTask], next_id := 2 }

/-- The service state with its task list replaced (counter unchanged). -/
def withTasks (s : Cli.SvcState) (l : List Cli.CTask) : Cli.SvcState :=
  { s with tasks := l }

/-- A CLI task whose title equals its own trimmed form and is non-empty
after trimming. -/
def TitleOk (t : Cli.CTask) : Prop :=
  t.title = pyStrip t.title ∧ pyStrip t.title ≠ ""

theorem head?_dropWhile_false {α : Type} (p : α → Bool) :
    ∀ (l : List α) (a : α), (l.dropWhile p).head? = some a → p a = false := by
  intro l
  induction l with
  | nil => intro a h; simp [List.dropWhile] at h
  | cons b t ih =>
    intro a h
    by_cases hb : p b
    · rw [List.dropWhile_cons_of_pos hb] at h
      exact ih a h
    · rw [List.dropWhile_cons_of_neg hb] at h
      simp at h
      subst h
      simpa using hb

theorem dropWhile_of_head_false {α : Type} (p : α → Bool) (l : List α)
    (h : ∀ a, l.head? = some a → p a = false) : l.dropWhile p = l := by
  cases l with
  | nil => rfl
  | cons a t =>
    have ha : p a = false := h a rfl
    rw [List.dropWhile_cons_of_neg (by simp [ha])]

theorem dropWhile_dropWhile_self {α : Type} (p : α → Bool) (l : List α) :
    (l.dropWhile p).dropWhile p = l.dropWhile p := by
  apply dropWhile_of_head_false
  intro a ha
  exact head?_dropWhile_false p l a ha

theorem head?_of_append_eq {α : Type} {l m r : List α} (h : r = l ++ m) (a : α)
    (ha : l.head? = some a) : r.head? = some a := by
  subst h
  cases l with
  | nil => simp at ha
  | cons b t => simp at ha; simp [ha]

/-- Stripping is idempotent on character lists. -/
theorem stripChars_idem (l : List Char) : stripChars (stripChars l) = stripChars l := by
  unfold stripChars
  set r := l.dropWhile pyWs with hr
  set q := r.reverse.dropWhile pyWs with hq
  obtain ⟨u, hu⟩ : ∃ u, u ++ q = r.reverse := List.dropWhile_suffix pyWs
  have hsplit : r = q.reverse ++ u.reverse := by
    have := congrArg List.reverse hu
    simpa using this.symm
  have hstep1 : q.reverse.dropWhile pyWs = q.reverse := by
    apply dropWhile_of_head_false
    intro a ha
    have hr_head : r.head? = some a := head?_of_append_eq hsplit a ha
    exact head?_dropWhile_false pyWs l a (by rw [← hr]; exact hr_head)
  rw [hstep1]
  simp only [List.reverse_reverse]
  rw [hq, dropWhile_dropWhile_self]

theorem data_pyStrip (s : String) : (pyStrip s).data = stripChars s.data := rfl

/-- Stripping is idempotent on strings. -/
theorem pyStrip_idem (s : String) : pyStrip (pyStrip s) = pyStrip s := by
  show String.mk (stripChars (pyStrip s).data) = pyStrip s
  rw [data_pyStrip, stripChars_idem]
  rfl

theorem verify_mismatch {current_user user_id : String} (h : current_user ≠ user_id) :
    Backend.verify_user_id_match current_user user_id = some (Backend.authzError user_id) := by
  simp [Backend.verify_user_id_match, h]

/-- C1: for every request whose authenticated subject differs from the owner
identifier in the request path, each of the six endpoints fails with the 403
authorization error and leaves the store untouched; the response is the same
for every database state, so it cannot leak whether the targeted task
exists. -/
theorem claim_C1_auth_gate (current_user user_id : String) (h : current_user ≠ user_id) :
    (∀ db, Backend.list_tasks user_id current_user db =
        (db, .error (Backend.authzError user_id))) ∧
    (∀ body db new_id now, Backend.create_new_task user_id body current_user db new_id now =
        (db, .error (Backend.authzError user_id))) ∧
    (∀ task_id db, Backend.get_task user_id task_id current_user db =
        (db, .error (Backend.authzError user_id))) ∧
    (∀ task_id body db now,
        Backend.update_existing_task user_id task_id body current_user db now =
          (db, .error (Backend.authzError user_id))) ∧
    (∀ task_id body db now, Backend.patch_task user_id task_id body current_user db now =
        (db, .error (Backend.authzError user_id))) ∧
    (∀ task_id db, Backend.delete_task_by_id user_id task_id current_user db =
        (db, .error (Backend.authzError user_id))) := by
  have hv := verify_mismatch h
  refine ⟨?_, ?_, ?_, ?_, ?_, ?_⟩ <;> intros <;>
    simp [Backend.list_tasks, Backend.create_new_task, Backend.get_task,
      Backend.update_existing_task, Backend.patch_task, Backend.delete_task_by_id, hv]

/-- Witness for C1 at a concrete mismatched subject, on an empty store and
on a store containing the targeted task: both give the same 403. -/
theorem claim_C1_auth_gate_witness :
    ("u2" : String) ≠ "u1" ∧
    Backend.get_task "u1" 1 "u2" [] = ([], .error (Backend.authzError "u1")) ∧
    Backend.get_task "u1" 1 "u2" [sampleTask] =
      ([sampleTask], .error (Backend.authzError "u1")) := by
  refine ⟨by decide, ?_, ?_⟩
  · exact (claim_C1_auth_gate "u2" "u1" (by decide)).2.2.1 1 []
  · exact (claim_C1_auth_gate "u2" "u1" (by decide)).2.2.1 1 _

/-- C2: `get_tasks_by_user` returns exactly the stored tasks whose owner
field equals the requested owner; consequently a task created with a
different owner never appears in the list of any other owner. -/
theorem claim_C2_owner_isolation :
    (∀ (db : List Backend.Task) (o : String) (t : Backend.Task),
        t ∈ Backend.get_tasks_by_user db o ↔ t ∈ db ∧ t.user_id = o) ∧
    (∀ (db : List Backend.Task) (o o2 title : String) (d : Option String) (nid now : Nat),
        o2 ≠ o →
        (Backend.create_task db o2 title d nid now).2 ∉
          Backend.get_tasks_by_user (Backend.create_task db o2 title d nid now).1 o) := by
  constructor
  · intro db o t
    simp [Backend.get_tasks_by_user, List.mem_filter]
  · intro db o o2 title d nid now hne hmem
    have : (Backend.create_task db o2 title d nid now).2.user_id = o := by
      have := (List.mem_filter.mp hmem).2
      simpa using this
    simp [Backend.create_task] at this
    exact hne this

/-- Witness for C2: a task created for owner u2 is absent from the list of
owner u1 on the store resulting from that creation. -/
theorem claim_C2_owner_isolation_witness :
    (Backend.create_task [] "u2" "t" none 1 0).2 ∉
      Backend.get_tasks_by_user (Backend.create_task [] "u2" "t" none 1 0).1 "u1" :=
  claim_C2_owner_isolation.2 [] "u1" "u2" "t" none 1 0 (by decide)

/-- C4: on an existing, owned task, a PATCH whose body sets no field yields
the 400 "No fields to update" error and leaves the store unchanged, and 400
differs from the not-found (404) and validation (422) statuses; in the CLI
variant, `update_task` with all three fields absent returns the
"No fields to update" failure and leaves the state unchanged. -/
theorem claim_C4_empty_patch (user_id : String) (task_id : Nat) (db : List Backend.Task)
    (t : Backend.Task) (now : Nat) (hget : Backend.get_task_by_id db task_id = some t)
    (howner : t.user_id = user_id) :
    Backend.patch_task user_id task_id
        { title := none, description := none, complete := none } user_id db now =
      (db, .error { status := 400, detail := "No fields to update" }) ∧
    (400 : Nat) ≠ 404 ∧ (400 : Nat) ≠ 422 ∧
    (∀ (s : Cli.SvcState) (tid : Nat),
        Cli.update_task s tid none none none = (s, (false, "No fields to update", none))) := by
  refine ⟨?_, by decide, by decide, ?_⟩
  · simp [Backend.patch_task, Backend.verify_user_id_match, hget, howner,
      Backend.TaskPatch.model_dump_exclude_unset]
  · intro s tid
    simp [Cli.update_task]

/-- Witness for C4 on a one-task store owned by the requesting subject. -/
theorem claim_C4_empty_patch_witness :
    Backend.get_task_by_id [sampleTask] 1 = some sampleTask ∧
    Backend.patch_task "u1" 1 emptyPatch "u1" [sampleTask] 7 =
      ([sampleTask], .error { status := 400, detail := "No fields to update" }) := by
  refine ⟨by decide, ?_⟩
  exact (claim_C4_empty_patch "u1" 1 [sampleTask] sampleTask 7 (by decide) (by decide)).1

/-- C5: evaluation of the `TaskUpdate` (PUT) schema as declared in
`schemas/task.py`.  A body missing `complete` fails validation and a body
missing `title` fails validation, but a body missing `description`
validates successfully with `description` defaulted to null — the schema
declares `description` with a `None` default, contradicting its own
docstring ("All fields are required for PUT") and the claim. -/
theorem claim_C5_put_schema :
    Backend.validateTaskUpdate bodyNoComplete = .error "complete: Field required" ∧
    Backend.validateTaskUpdate bodyNoTitle = .error "title: Field required" ∧
    Backend.validateTaskUpdate bodyNoDescription =
      .ok { title := "a", description := none, complete := true } := by
  have h1 : "a".length = 1 := by decide
  refine ⟨?_, rfl, ?_⟩
  · simp [Backend.validateTaskUpdate, bodyNoComplete, h1]
  · simp [Backend.validateTaskUpdate, bodyNoDescription, h1]

theorem keyLe_trans (a b c : Nat × Nat × Nat) (hab : Cli.keyLe a b = true)
    (hbc : Cli.keyLe b c = true) : Cli.keyLe a c = true := by
  obtain ⟨a1, a2, a3⟩ := a
  obtain ⟨b1, b2, b3⟩ := b
  obtain ⟨c1, c2, c3⟩ := c
  simp only [Cli.keyLe, Bool.or_eq_true, Bool.and_eq_true, decide_eq_true_eq] at *
  omega

theorem keyLe_of_not_keyLe (a b : Nat × Nat × Nat) (h : Cli.keyLe a b = false) :
    Cli.keyLe b a = true := by
  obtain ⟨a1, a2, a3⟩ := a
  obtain ⟨b1, b2, b3⟩ := b
  simp only [Cli.keyLe, Bool.or_eq_false_iff, Bool.and_eq_false_iff, Bool.or_eq_true,
    Bool.and_eq_true, decide_eq_true_eq, decide_eq_false_iff_not] at *
  omega

theorem insertSorted_perm (x : Cli.CTask) (l : List Cli.CTask) :
    (Cli.insertSorted x l).Perm (x :: l) := by
  induction l with
  | nil => exact List.Perm.refl _
  | cons y ys ih =>
    unfold Cli.insertSorted
    by_cases h : Cli.keyLe (Cli.sortKey x) (Cli.sortKey y) = true
    · rw [if_pos h]
    · rw [if_neg h]
      exact (ih.cons y).trans (List.Perm.swap x y ys)

theorem mem_insertSorted {x z : Cli.CTask} {l : List Cli.CTask}
    (h : z ∈ Cli.insertSorted x l) : z = x ∨ z ∈ l := by
  have := (insertSorted_perm x l).mem_iff.mp h
  simpa using this

theorem pairwise_insertSorted (x : Cli.CTask) (l : List Cli.CTask)
    (hl : List.Pairwise (fun a b => Cli.keyLe (Cli.sortKey a) (Cli.sortKey b) = true) l) :
    List.Pairwise (fun a b => Cli.keyLe (Cli.sortKey a) (Cli.sortKey b) = true)
      (Cli.insertSorted x l) := by
  induction l with
  | nil => simp [Cli.insertSorted]
  | cons y ys ih =>
    unfold Cli.insertSorted
    rcases List.pairwise_cons.mp hl with ⟨hy, hys⟩
    by_cases h : Cli.keyLe (Cli.sortKey x) (Cli.sortKey y) = true
    · rw [if_pos h]
      refine List.pairwise_cons.mpr ⟨?_, hl⟩
      intro z hz
      rcases List.mem_cons.mp hz with rfl | hz'
      · exact h
      · exact keyLe_trans _ _ _ h (hy z hz')
    · rw [if_neg h]
      refine List.pairwise_cons.mpr ⟨?_, ih hys⟩
      intro z hz
      rcases mem_insertSorted hz with rfl | hz
      · exact keyLe_of_not_keyLe _ _ (Bool.eq_false_iff.mpr h)
      · exact hy z hz

theorem sortTasks_perm (l : List Cli.CTask) : (Cli.sortTasks l).Perm l := by
  induction l with
  | nil => exact List.Perm.refl _
  | cons x xs ih =>
    exact (insertSorted_perm x (Cli.sortTasks xs)).trans (ih.cons x)

theorem sortTasks_pairwise (l : List Cli.CTask) :
    List.Pairwise (fun a b => Cli.keyLe (Cli.sortKey a) (Cli.sortKey b) = true)
      (Cli.sortTasks l) := by
  induction l with
  | nil => simp [Cli.sortTasks]
  | cons x xs ih => exact pairwise_insertSorted x (Cli.sortTasks xs) ih

/-- C6: the CLI list operation returns a permutation of the stored tasks
that is sorted by completion status ascending, then priority rank
(High = 0, Medium = 1, Low = 2) ascending, then identifier ascending; on
the four-task scenario (1, Low, incomplete), (2, High, complete),
(3, Medium, incomplete), (4, High, incomplete) the returned identifier
order is [4, 3, 1, 2]. -/
theorem claim_C6_sort_order :
    (∀ tasks : List Cli.CTask,
        ((Cli.get_all_tasks tasks).2.2).Perm tasks ∧
        List.Pairwise (fun a b => Cli.keyLe (Cli.sortKey a) (Cli.sortKey b) = true)
          (Cli.get_all_tasks tasks).2.2) ∧
    ((Cli.get_all_tasks
        [{ id := 1, title := "t1", description := "", priority := "Low", complete := false },
         { id := 2, title := "t2", description := "", priority := "High", complete := true },
         { id := 3, title := "t3", description := "", priority := "Medium", complete := false },
         { id := 4, title := "t4", description := "", priority := "High", complete := false }]
      ).2.2).map Cli.CTask.id = [4, 3, 1, 2] := by
  constructor
  · intro tasks
    by_cases he : tasks.isEmpty = true
    · rw [List.isEmpty_iff] at he
      subst he
      simp [Cli.get_all_tasks]
    · constructor
      · simp only [Cli.get_all_tasks, if_neg he]
        exact sortTasks_perm tasks
      · simp only [Cli.get_all_tasks, if_neg he]
        exact sortTasks_pairwise tasks
  · decide

theorem find?_eraseP_id_none (l : List Backend.Task) (tid : Nat)
    (hnd : (l.map Backend.Task.id).Nodup) :
    (l.eraseP (fun t => t.id == tid)).find? (fun t => t.id == tid) = none := by
  induction l with
  | nil => rfl
  | cons a l ih =>
    simp only [List.map_cons, List.nodup_cons] at hnd
    by_cases ha : (a.id == tid) = true
    · simp only [List.eraseP_cons, ha, cond_true]
      apply List.find?_eq_none.mpr
      intro x hx hxid
      have : x.id = a.id := by
        have h1 : x.id = tid := by simpa using hxid
        have h2 : a.id = tid := by simpa using ha
        rw [h1, h2]
      exact hnd.1 (this ▸ List.mem_map_of_mem Backend.Task.id hx)
    · have ha' : (a.id == tid) = false := by simpa using ha
      simp only [List.eraseP_cons, ha', cond_false]
      simp only [List.find?_cons, ha', cond_false]
      exact ih hnd.2

theorem find?_erase_id_none (l : List Cli.CTask) (tid : Nat) (t : Cli.CTask)
    (hnd : (l.map Cli.CTask.id).Nodup)
    (hfind : l.find? (fun x => x.id == tid) = some t) :
    (l.erase t).find? (fun x => x.id == tid) = none := by
  have hlnd : l.Nodup := List.Nodup.of_map _ hnd
  apply List.find?_eq_none.mpr
  intro x hx hxid
  have hx' := (List.Nodup.mem_erase_iff hlnd).mp hx
  have htl : t ∈ l := List.mem_of_find?_eq_some hfind
  have htid : t.id = tid := by simpa using List.find?_some hfind
  have hxtid : x.id = tid := by simpa using hxid
  exact hx'.1 (List.inj_on_of_nodup_map hnd hx'.2 htl (by rw [hxtid, htid]))

/-- C9: in both variants, a delete reports whether a row was actually
removed; a failed delete leaves the store unchanged; and after a successful
delete of an id (on a store with unique ids, which the primary key and the
monotonic CLI counter guarantee), a read of that id yields not-found and a
second delete returns the not-found failure rather than an error, leaving
the store unchanged. -/
theorem claim_C9_delete_idempotent :
    (∀ (db : List Backend.Task) (tid : Nat), (db.map Backend.Task.id).Nodup →
      ((Backend.delete_task db tid).2 = (Backend.get_task_by_id db tid).isSome) ∧
      ((Backend.delete_task db tid).2 = false → (Backend.delete_task db tid).1 = db) ∧
      ((Backend.delete_task db tid).2 = true →
        Backend.get_task_by_id (Backend.delete_task db tid).1 tid = none ∧
        Backend.delete_task (Backend.delete_task db tid).1 tid =
          ((Backend.delete_task db tid).1, false))) ∧
    (∀ (s : Cli.SvcState) (tid : Nat), (s.tasks.map Cli.CTask.id).Nodup →
      ((Cli.delete_task s tid).2.1 = (Cli.get_task_by_id s.tasks tid).1) ∧
      ((Cli.delete_task s tid).2.1 = false → Cli.delete_task s tid = (s, (false, "Task not found"))) ∧
      ((Cli.delete_task s tid).2.1 = true →
        Cli.get_task_by_id (Cli.delete_task s tid).1.tasks tid = (false, "Task not found", none) ∧
        Cli.delete_task (Cli.delete_task s tid).1 tid =
          ((Cli.delete_task s tid).1, (false, "Task not found")))) := by
  constructor
  · intro db tid hnd
    cases hget : Backend.get_task_by_id db tid with
    | none =>
      refine ⟨?_, ?_, ?_⟩ <;> simp [Backend.delete_task, hget]
    | some t =>
      have herase := find?_eraseP_id_none db tid hnd
      refine ⟨?_, ?_, ?_⟩
      · simp [Backend.delete_task, hget]
      · simp [Backend.delete_task, hget]
      · intro _
        constructor
        · simp only [Backend.delete_task, hget]
          simpa [Backend.get_task_by_id] using herase
        · simp only [Backend.delete_task, hget]
          simp [Backend.delete_task, Backend.get_task_by_id, herase]
  · intro s tid hnd
    cases hf : s.tasks.find? (fun x => x.id == tid) with
    | none =>
      refine ⟨?_, ?_, ?_⟩ <;> simp [Cli.delete_task, Cli.get_task_by_id, hf]
    | some t =>
      have herase := find?_erase_id_none s.tasks tid t hnd hf
      refine ⟨?_, ?_, ?_⟩
      · simp [Cli.delete_task, Cli.get_task_by_id, hf]
      · simp [Cli.delete_task, Cli.get_task_by_id, hf]
      · intro _
        constructor
        · simp only [Cli.delete_task, Cli.get_task_by_id, hf]
          simp [herase]
        · simp only [Cli.delete_task, Cli.get_task_by_id, hf]
          simp [Cli.delete_task, Cli.get_task_by_id, herase]

/-- Witness for C9 on one-row stores in both variants. -/
theorem claim_C9_delete_idempotent_witness :
    (Backend.delete_task [sampleTask] 1).2 = true ∧
    Backend.get_task_by_id (Backend.delete_task [sampleTask] 1).1 1 = none ∧
    Backend.delete_task (Backend.delete_task [sampleTask] 1).1 1 =
      ((Backend.delete_task [sampleTask] 1).1, false) ∧
    (Cli.delete_task sampleState 1).2.1 = true ∧
    Cli.get_task_by_id (Cli.delete_task sampleState 1).1.tasks 1 =
      (false, "Task not found", none) ∧
    Cli.delete_task (Cli.delete_task sampleState 1).1 1 =
      ((Cli.delete_task sampleState 1).1, (false, "Task not found")) := by
  have hb := (claim_C9_delete_idempotent.1 [sampleTask] 1 (by decide)).2.2 (by decide)
  have hc := (claim_C9_delete_idempotent.2 sampleState 1 (by decide)).2.2 (by decide)
  exact ⟨by decide, hb.1, hb.2, by decide, hc.1, hc.2⟩

theorem find?_replaceById (tid : Nat) (t' : Cli.CTask) (ht : (t'.id == tid) = true) :
    ∀ l : List Cli.CTask, (l.find? (fun x => x.id == tid)).isSome = true →
      (Cli.replaceById l tid t').find? (fun x => x.id == tid) = some t' := by
  intro l
  induction l with
  | nil => intro hex; simp [List.find?] at hex
  | cons a l ih =>
    intro hex
    by_cases ha : (a.id == tid) = true
    · unfold Cli.replaceById
      rw [if_pos ha]
      simp [List.find?_cons, ht]
    · have ha' : (a.id == tid) = false := by simpa using ha
      unfold Cli.replaceById
      rw [if_neg (by simp [ha'])]
      simp only [List.find?_cons, ha', cond_false] at hex ⊢
      exact ih hex

/-- C10: the CLI `update_task` is not atomic on failure.  When a stored task
is updated with a valid title, a new description, and an invalid priority,
the call returns the validation failure result, yet the store already holds
the new title (trimmed) and the new description; only the priority keeps its
prior value. -/
theorem claim_C10_nonatomic_update (s : Cli.SvcState) (tid : Nat) (t0 : Cli.CTask)
    (ti d p : String)
    (hfind : s.tasks.find? (fun x => x.id == tid) = some t0)
    (hti : (Cli.validate_title ti).1 = true)
    (hp : (Cli.validate_priority p).1 = false) :
    Cli.update_task s tid (some ti) (some d) (some p) =
      (withTasks s (Cli.replaceById
          (Cli.replaceById s.tasks tid { t0 with title := pyStrip ti }) tid
          { t0 with title := pyStrip ti, description := d }),
       (false, (Cli.validate_priority p).2, none)) ∧
    Cli.get_task_by_id (Cli.update_task s tid (some ti) (some d) (some p)).1.tasks tid =
      (true, "Task found", some { t0 with title := pyStrip ti, description := d }) ∧
    ({ t0 with title := pyStrip ti, description := d }).priority = t0.priority := by
  have hg : (Cli.get_task_by_id s.tasks tid).2.2 = some t0 := by
    simp [Cli.get_task_by_id, hfind]
  have hid0' := List.find?_some hfind
  have hid0 : (t0.id == tid) = true := hid0'
  have hmain : Cli.update_task s tid (some ti) (some d) (some p) =
      (withTasks s (Cli.replaceById
          (Cli.replaceById s.tasks tid { t0 with title := pyStrip ti }) tid
          { t0 with title := pyStrip ti, description := d }),
       (false, (Cli.validate_priority p).2, none)) := by
    simp [Cli.update_task, hg, hti, Cli.update_desc, Cli.update_prio, hp, withTasks]
  refine ⟨hmain, ?_, rfl⟩
  have h1 : ((Cli.replaceById s.tasks tid { t0 with title := pyStrip ti }).find?
      (fun x => x.id == tid)) = some { t0 with title := pyStrip ti } :=
    find?_replaceById tid { t0 with title := pyStrip ti } hid0 s.tasks (by rw [hfind]; rfl)
  have h2 : ((Cli.replaceById
      (Cli.replaceById s.tasks tid { t0 with title := pyStrip ti }) tid
      { t0 with title := pyStrip ti, description := d }).find? (fun x => x.id == tid)) =
      some { t0 with title := pyStrip ti, description := d } :=
    find?_replaceById tid { t0 with title := pyStrip ti, description := d } hid0 _
      (by rw [h1]; rfl)
  rw [hmain]
  simp [Cli.get_task_by_id, withTasks, h2]

/-- Witness for C10: updating the sample task with a valid title, a new
description and the invalid priority URGENT fails, yet the store holds the
new title and description. -/
theorem claim_C10_nonatomic_update_witness :
    Cli.update_task sampleState 1 (some "b") (some "x") (some "URGENT") =
      (withTasks sampleState (Cli.replaceById
          (Cli.replaceById sampleState.tasks 1 { sampleCTask with title := pyStrip "b" }) 1
          { sampleCTask with title := pyStrip "b", description := "x" }),
       (false, (Cli.validate_priority "URGENT").2, none)) ∧
    Cli.get_task_by_id (Cli.update_task sampleState 1 (some "b") (some "x") (some "URGENT")).1.tasks 1 =
      (true, "Task found", some { sampleCTask with title := pyStrip "b", description := "x" }) := by
  have h := claim_C10_nonatomic_update sampleState 1 sampleCTask "b" "x" "URGENT"
    (by decide) (by decide) (by decide)
  exact ⟨h.1, h.2.1⟩

theorem validate_title_true (ti : String) (h : (Cli.validate_title ti).1 = true) :
    pyStrip ti ≠ "" := by
  intro he
  simp [Cli.validate_title, he] at h

theorem titleOk_of_strip (t0 : Cli.CTask) (ti : String)
    (h : (Cli.validate_title ti).1 = true) : TitleOk { t0 with title := pyStrip ti } := by
  constructor
  · show pyStrip ti = pyStrip (pyStrip ti)
    exact (pyStrip_idem ti).symm
  · show pyStrip (pyStrip ti) ≠ ""
    rw [pyStrip_idem ti]
    exact validate_title_true ti h

theorem mem_replaceById {x t' : Cli.CTask} {tid : Nat} :
    ∀ {l : List Cli.CTask}, x ∈ Cli.replaceById l tid t' → x ∈ l ∨ x = t' := by
  intro l
  induction l with
  | nil => intro h; simp [Cli.replaceById] at h
  | cons a l ih =>
    intro h
    unfold Cli.replaceById at h
    by_cases ha : (a.id == tid) = true
    · rw [if_pos ha] at h
      rcases List.mem_cons.mp h with rfl | h'
      · exact Or.inr rfl
      · exact Or.inl (List.mem_cons_of_mem _ h')
    · rw [if_neg ha] at h
      rcases List.mem_cons.mp h with rfl | h'
      · exact Or.inl (List.mem_cons_self _ _)
      · rcases ih h' with h'' | h''
        · exact Or.inl (List.mem_cons_of_mem _ h'')
        · exact Or.inr h''

theorem allTitleOk_replaceById {l : List Cli.CTask} {tid : Nat} {t' : Cli.CTask}
    (hl : ∀ x ∈ l, TitleOk x) (ht : TitleOk t') :
    ∀ x ∈ Cli.replaceById l tid t', TitleOk x := by
  intro x hx
  rcases mem_replaceById hx with h | rfl
  · exact hl x h
  · exact ht

theorem get_task_by_id_mem {tasks : List Cli.CTask} {tid : Nat} {t : Cli.CTask}
    (h : (Cli.get_task_by_id tasks tid).2.2 = some t) : t ∈ tasks := by
  unfold Cli.get_task_by_id at h
  cases hf : tasks.find? (fun x => x.id == tid) with
  | none => rw [hf] at h; simp at h
  | some u =>
    rw [hf] at h
    simp at h
    exact h ▸ List.mem_of_find?_eq_some hf

theorem update_prio_titles (s : Cli.SvcState) (tid : Nat) (t : Cli.CTask)
    (p? : Option String) (hs : ∀ x ∈ s.tasks, TitleOk x) (ht : TitleOk t) :
    ∀ x ∈ (Cli.update_prio s tid t p?).1.tasks, TitleOk x := by
  cases p? with
  | none => exact hs
  | some p =>
    by_cases hv : (Cli.validate_priority p).1 = false
    · simpa [Cli.update_prio, hv] using hs
    · simp only [Cli.update_prio, if_neg hv]
      exact allTitleOk_replaceById hs ht

theorem update_desc_titles (s : Cli.SvcState) (tid : Nat) (t : Cli.CTask)
    (d? p? : Option String) (hs : ∀ x ∈ s.tasks, TitleOk x) (ht : TitleOk t) :
    ∀ x ∈ (Cli.update_desc s tid t d? p?).1.tasks, TitleOk x := by
  cases d? with
  | none => exact update_prio_titles s tid t p? hs ht
  | some d =>
    exact update_prio_titles _ tid _ p? (allTitleOk_replaceById hs ht) ht

theorem update_task_titles (s : Cli.SvcState) (tid : Nat) (ti? d? p? : Option String)
    (hs : ∀ x ∈ s.tasks, TitleOk x) :
    ∀ x ∈ (Cli.update_task s tid ti? d? p?).1.tasks, TitleOk x := by
  by_cases hc : (ti?.isNone && d?.isNone && p?.isNone) = true
  · simpa [Cli.update_task, hc] using hs
  · cases hg : (Cli.get_task_by_id s.tasks tid).2.2 with
    | none => simpa [Cli.update_task, hc, hg] using hs
    | some t0 =>
      have ht0 : TitleOk t0 := hs t0 (get_task_by_id_mem hg)
      cases ti? with
      | none =>
        simp only [Cli.update_task, hc, Bool.false_eq_true, if_neg, hg]
        exact update_desc_titles s tid t0 d? p? hs ht0
      | some ti =>
        by_cases hv : (Cli.validate_title ti).1 = false
        · simpa [Cli.update_task, hc, hg, hv] using hs
        · have hv' : (Cli.validate_title ti).1 = true := by
            cases h : (Cli.validate_title ti).1
            · exact absurd h hv
            · rfl
          have ht1 : TitleOk { t0 with title := pyStrip ti } := titleOk_of_strip t0 ti hv'
          simp only [Cli.update_task, hc, Bool.false_eq_true, if_neg, hg, hv]
          exact update_desc_titles _ tid _ d? p?
            (allTitleOk_replaceById hs ht1) ht1

theorem create_task_titles (s : Cli.SvcState) (ti d p : String)
    (hs : ∀ x ∈ s.tasks, TitleOk x) :
    ∀ x ∈ (Cli.create_task s ti d p).1.tasks, TitleOk x := by
  by_cases h1 : (Cli.validate_title ti).1 = false
  · simpa [Cli.create_task, h1] using hs
  · by_cases h2 : (Cli.validate_priority p).1 = false
    · simpa [Cli.create_task, h1, h2] using hs
    · have hv : (Cli.validate_title ti).1 = true := by
        cases h : (Cli.validate_title ti).1
        · exact absurd h h1
        · rfl
      simp only [Cli.create_task, if_neg h1, if_neg h2]
      intro x hx
      rcases List.mem_append.mp hx with h | h
      · exact hs x h
      · have hx' : x = Cli.create_task_dict s.next_id ti d p := by simpa using h
        subst hx'
        constructor
        · show pyStrip ti = pyStrip (pyStrip ti)
          exact (pyStrip_idem ti).symm
        · show pyStrip (pyStrip ti) ≠ ""
          rw [pyStrip_idem ti]
          exact validate_title_true ti hv

theorem toggle_titles (s : Cli.SvcState) (tid : Nat) (hs : ∀ x ∈ s.tasks, TitleOk x) :
    ∀ x ∈ (Cli.toggle_task_completion s tid).1.tasks, TitleOk x := by
  cases hg : (Cli.get_task_by_id s.tasks tid).2.2 with
  | none => simpa [Cli.toggle_task_completion, hg] using hs
  | some t =>
    have ht : TitleOk t := hs t (get_task_by_id_mem hg)
    simp only [Cli.toggle_task_completion, hg]
    exact allTitleOk_replaceById hs ht

theorem delete_titles (s : Cli.SvcState) (tid : Nat) (hs : ∀ x ∈ s.tasks, TitleOk x) :
    ∀ x ∈ (Cli.delete_task s tid).1.tasks, TitleOk x := by
  cases hg : (Cli.get_task_by_id s.tasks tid).2.2 with
  | none => simpa [Cli.delete_task, hg] using hs
  | some t =>
    simp only [Cli.delete_task, hg]
    intro x hx
    exact hs x (List.mem_of_mem_erase hx)

theorem stepOp_titles (s : Cli.SvcState) (op : Cli.Op) (hs : ∀ x ∈ s.tasks, TitleOk x) :
    ∀ x ∈ (Cli.stepOp s op).1.tasks, TitleOk x := by
  cases op with
  | create t d p => exact create_task_titles s t d p hs
  | update tid t d p => exact update_task_titles s tid t d p hs
  | toggle tid => exact toggle_titles s tid hs
  | delete tid => exact delete_titles s tid hs

theorem runAux_titles : ∀ (ops : List Cli.Op) (s : Cli.SvcState),
    (∀ x ∈ s.tasks, TitleOk x) → ∀ x ∈ (Cli.runAux s ops).1.tasks, TitleOk x := by
  intro ops
  induction ops with
  | nil => intro s hs; exact hs
  | cons op ops ih =>
    intro s hs
    exact ih (Cli.stepOp s op).1 (stepOp_titles s op hs)

theorem update_prio_next_id (s : Cli.SvcState) (tid : Nat) (t : Cli.CTask)
    (p? : Option String) : (Cli.update_prio s tid t p?).1.next_id = s.next_id := by
  cases p? with
  | none => rfl
  | some p =>
    by_cases hv : (Cli.validate_priority p).1 = false
    · simp [Cli.update_prio, hv]
    · simp [Cli.update_prio, hv]

theorem update_desc_next_id (s : Cli.SvcState) (tid : Nat) (t : Cli.CTask)
    (d? p? : Option String) : (Cli.update_desc s tid t d? p?).1.next_id = s.next_id := by
  cases d? with
  | none => exact update_prio_next_id s tid t p?
  | some d => exact update_prio_next_id _ tid _ p?

theorem update_task_next_id (s : Cli.SvcState) (tid : Nat) (ti? d? p? : Option String) :
    (Cli.update_task s tid ti? d? p?).1.next_id = s.next_id := by
  by_cases hc : (ti?.isNone && d?.isNone && p?.isNone) = true
  · simp [Cli.update_task, hc]
  · cases hg : (Cli.get_task_by_id s.tasks tid).2.2 with
    | none => simp [Cli.update_task, hc, hg]
    | some t0 =>
      cases ti? with
      | none =>
        simp only [Cli.update_task, hc, Bool.false_eq_true, if_neg, hg]
        exact update_desc_next_id s tid t0 d? p?
      | some ti =>
        by_cases hv : (Cli.validate_title ti).1 = false
        · simp [Cli.update_task, hc, hg, hv]
        · simp only [Cli.update_task, hc, Bool.false_eq_true, if_neg, hg, hv]
          exact update_desc_next_id _ tid _ d? p?

theorem toggle_next_id (s : Cli.SvcState) (tid : Nat) :
    (Cli.toggle_task_completion s tid).1.next_id = s.next_id := by
  cases hg : (Cli.get_task_by_id s.tasks tid).2.2 with
  | none => simp [Cli.toggle_task_completion, hg]
  | some t => simp [Cli.toggle_task_completion, hg]

theorem delete_next_id (s : Cli.SvcState) (tid : Nat) :
    (Cli.delete_task s tid).1.next_id = s.next_id := by
  cases hg : (Cli.get_task_by_id s.tasks tid).2.2 with
  | none => simp [Cli.delete_task, hg]
  | some t => simp [Cli.delete_task, hg]

theorem stepOp_next_mono (s : Cli.SvcState) (op : Cli.Op) :
    s.next_id ≤ (Cli.stepOp s op).1.next_id := by
  cases op with
  | create t d p =>
    by_cases h1 : (Cli.validate_title t).1 = false
    · simp [Cli.stepOp, Cli.create_task, h1]
    · by_cases h2 : (Cli.validate_priority p).1 = false
      · simp [Cli.stepOp, Cli.create_task, h1, h2]
      · simp [Cli.stepOp, Cli.create_task, h1, h2]
  | update tid t d p =>
    simp only [Cli.stepOp]
    exact (update_task_next_id s tid t d p).ge
  | toggle tid =>
    simp only [Cli.stepOp]
    exact (toggle_next_id s tid).ge
  | delete tid =>
    simp only [Cli.stepOp]
    exact (delete_next_id s tid).ge

theorem stepOp_assigned (s : Cli.SvcState) (op : Cli.Op) (a : Nat)
    (h : (Cli.stepOp s op).2 = some a) :
    a = s.next_id ∧ (Cli.stepOp s op).1.next_id = s.next_id + 1 := by
  cases op with
  | create t d p =>
    by_cases h1 : (Cli.validate_title t).1 = false
    · simp [Cli.stepOp, Cli.create_task, h1] at h
    · by_cases h2 : (Cli.validate_priority p).1 = false
      · simp [Cli.stepOp, Cli.create_task, h1, h2] at h
      · simp only [Cli.stepOp, Cli.create_task, if_neg h1, if_neg h2] at h ⊢
        simp at h
        exact ⟨h.symm, by simp [Cli.create_task, h1, h2]⟩
  | update tid t d p => simp [Cli.stepOp] at h
  | toggle tid => simp [Cli.stepOp] at h
  | delete tid => simp [Cli.stepOp] at h

theorem runAux_next_mono : ∀ (ops : List Cli.Op) (s : Cli.SvcState),
    s.next_id ≤ (Cli.runAux s ops).1.next_id := by
  intro ops
  induction ops with
  | nil => intro s; exact Nat.le_refl _
  | cons op ops ih =>
    intro s
    exact Nat.le_trans (stepOp_next_mono s op) (ih (Cli.stepOp s op).1)

theorem runAux_log_ge : ∀ (ops : List Cli.Op) (s : Cli.SvcState) (a : Nat),
    a ∈ (Cli.runAux s ops).2 → s.next_id ≤ a := by
  intro ops
  induction ops with
  | nil => intro s a ha; simp [Cli.runAux] at ha
  | cons op ops ih =>
    intro s a ha
    simp only [Cli.runAux] at ha
    cases hr : (Cli.stepOp s op).2 with
    | none =>
      rw [hr] at ha
      exact Nat.le_trans (stepOp_next_mono s op) (ih (Cli.stepOp s op).1 a ha)
    | some b =>
      rw [hr] at ha
      rcases List.mem_cons.mp ha with rfl | ha'
      · exact (stepOp_assigned s op a hr).1.ge
      · exact Nat.le_trans (stepOp_next_mono s op) (ih (Cli.stepOp s op).1 a ha')

theorem runAux_pairwise : ∀ (ops : List Cli.Op) (s : Cli.SvcState),
    List.Pairwise (fun a b => a < b) (Cli.runAux s ops).2 := by
  intro ops
  induction ops with
  | nil => intro s; simp [Cli.runAux]
  | cons op ops ih =>
    intro s
    simp only [Cli.runAux]
    cases hr : (Cli.stepOp s op).2 with
    | none => exact ih (Cli.stepOp s op).1
    | some a =>
      refine List.pairwise_cons.mpr ⟨?_, ih (Cli.stepOp s op).1⟩
      intro b hb
      have hass := stepOp_assigned s op a hr
      have hge := runAux_log_ge ops (Cli.stepOp s op).1 b hb
      rw [hass.2] at hge
      rw [hass.1]
      exact Nat.lt_of_succ_le hge

/-- C8: in the CLI variant, every reachable sequence of operations assigns
strictly increasing identifiers to successful creates: each created id is
strictly greater than every id assigned before it, including the ids of
tasks deleted in between, so ids are never reused and are all distinct. -/
theorem claim_C8_monotonic_ids (ops : List Cli.Op) :
    List.Pairwise (fun a b => a < b) (Cli.runCli ops).2 ∧ (Cli.runCli ops).2.Nodup := by
  have hp := runAux_pairwise ops Cli.initState
  exact ⟨hp, List.Pairwise.imp (fun h => Nat.ne_of_lt h) hp⟩

/-- C7 counterexample: the backend does not trim titles.  The single-space
title passes `TaskCreate` validation (length 1 is within 1-200, no trimming
anywhere in the schema), and `crud.create_task` stores it verbatim, so the
store holds a task whose title is whitespace-only: it differs from its
trimmed form, which is empty. -/
theorem claim_C7_counterexample :
    Backend.validateTaskCreate { title := some " ", description := none } =
      .ok { title := " ", description := none } ∧
    (Backend.create_task [] "u1" " " none 1 0).2.title = " " ∧
    pyStrip " " = "" ∧
    (Backend.create_task [] "u1" " " none 1 0).2.title ≠
      pyStrip (Backend.create_task [] "u1" " " none 1 0).2.title := by
  have hl : (" " : String).length = 1 := by decide
  refine ⟨?_, rfl, by decide, by decide⟩
  simp [Backend.validateTaskCreate, hl]

/-- C7 as amended: in the CLI variant every task stored in any state
reachable by create/update/toggle/delete operations has a title equal to its
own trimmed form and non-empty after trimming (construction trims and
validation rejects whitespace-only titles); in the backend variant
`crud.create_task` stores the title verbatim, with no trimming. -/
theorem claim_C7_title_trim :
    (∀ ops : List Cli.Op, ∀ t ∈ (Cli.runCli ops).1.tasks,
        t.title = pyStrip t.title ∧ pyStrip t.title ≠ "") ∧
    (∀ (db : List Backend.Task) (user_id title : String) (d : Option String)
        (nid now : Nat),
        (Backend.create_task db user_id title d nid now).2.title = title) := by
  constructor
  · intro ops t ht
    exact runAux_titles ops Cli.initState (by simp [Cli.initState]) t ht
  · intro db user_id title d nid now
    rfl

/-- Witness for C7 on the one-operation run that creates a task with a
padded title: the stored task is trimmed and non-empty. -/
theorem claim_C7_title_trim_witness :
    (Cli.create_task_dict 1 "  hi  " "" "High") ∈
      (Cli.runCli [Cli.Op.create "  hi  " "" "High"]).1.tasks ∧
    ((Cli.create_task_dict 1 "  hi  " "" "High").title =
        pyStrip (Cli.create_task_dict 1 "  hi  " "" "High").title ∧
      pyStrip (Cli.create_task_dict 1 "  hi  " "" "High").title ≠ "") := by
  refine ⟨by decide, ?_⟩
  exact claim_C7_title_trim.1 [Cli.Op.create "  hi  " "" "High"]
    (Cli.create_task_dict 1 "  hi  " "" "High") (by decide)
